import Mathlib

/-!
# Verification of `lib/procinfo_unix.cpp` (BOINC process enumeration)

A shallow embedding of the process-snapshot subsystem:

* `PROC_STAT.parse` — the `sscanf`-based parser for one `/proc/<pid>/stat`
  line (Linux text family), modelled conversion by conversion after the
  format string `"%d (%[^)]) %c %lld ... %lld %lld"` (39 conversions).
* `procinfo_setup` — the Linux-family snapshot builder: directory
  enumeration, per-entry open/read/parse, unit normalization, flag
  computation and map insertion.
* `procinfo_setup_solaris` — the Solaris-family (`HAVE_PROCFS_H`) branch:
  whole-struct reads of `psinfo_t` and `prusage_t`.

The host environment (contents of `/proc`) is an explicit parameter; the
process's own pid (`getpid()`) and the page size (`getpagesize()`) are
explicit arguments.  C `double`/`float` arithmetic on integral inputs is
modelled exactly over `ℚ`; C machine integers are modelled as `Int`/`Nat`
(integer overflow in `sscanf` conversions is undefined behaviour in C and
is not exercised by any property below; the defined `strtoull` negation is
kept modulo `2^64`).
-/

/-! ## Character classes (C `"C"`-locale `isdigit` / `isspace`) -/

/-- C `isdigit` in the `"C"` locale: `'0'..'9'`. -/
def isDigitCh (c : Char) : Bool := 48 ≤ c.toNat && c.toNat ≤ 57

/-- C `isspace` in the `"C"` locale: `' '` and `'\t'..'\r'` (9..13). -/
def isSpaceCh (c : Char) : Bool := c.toNat == 32 || (9 ≤ c.toNat && c.toNat ≤ 13)

/-- First character is a decimal digit (`isdigit(s[0])`; an empty C string
has `s[0] = '\0'`, not a digit). -/
def headIsDigit : List Char → Bool
  | [] => false
  | c :: _ => isDigitCh c

/-! ## `sscanf` conversion primitives

Each `%`-conversion of the format string is modelled as a function from the
remaining input to `Option (value × rest)`; `none` is a matching failure,
which makes `sscanf` stop and return the number of conversions done so far.
-/

/-- Skip the whitespace that `sscanf` skips before a numeric conversion and
for a blank in the format. -/
def skipWs : List Char → List Char
  | [] => []
  | c :: cs => if isSpaceCh c then skipWs cs else c :: cs

/-- Consume a maximal run of further digits, accumulating the value. -/
def scanDigitsAux (acc : Nat) : List Char → Nat × List Char
  | [] => (acc, [])
  | c :: cs =>
    if isDigitCh c then scanDigitsAux (acc * 10 + (c.toNat - 48)) cs
    else (acc, c :: cs)

/-- Consume a nonempty run of digits; fails if the input does not start
with a digit. -/
def scanDigits : List Char → Option (Nat × List Char)
  | [] => none
  | c :: cs =>
    if isDigitCh c then some (scanDigitsAux (c.toNat - 48) cs)
    else none

/-- Consume an optional `'-'`/`'+'` sign (as `strtol`/`strtoull` do). -/
def scanSign (s : List Char) : Bool × List Char :=
  match s with
  | [] => (false, [])
  | c :: cs =>
    if c == '-' then (true, cs)
    else if c == '+' then (false, cs)
    else (false, c :: cs)

/-- The `%d`/`%lld` conversion after its whitespace skip. -/
def scanIntNoWs (t : List Char) : Option (Int × List Char) :=
  let (neg, t2) := scanSign t
  (scanDigits t2).map fun p => (if neg then -(p.1 : Int) else (p.1 : Int), p.2)

/-- The `%d` / `%lld` conversion: skip whitespace, optional sign, digits. -/
def scanInt (s : List Char) : Option (Int × List Char) := scanIntNoWs (skipWs s)

/-- The `%llu` conversion after its whitespace skip: like `strtoull`, a
leading `'-'` negates the value in `unsigned long long`, i.e. modulo
`2^64`. -/
def scanULLNoWs (t : List Char) : Option (Nat × List Char) :=
  let (neg, t2) := scanSign t
  (scanDigits t2).map fun p =>
    (if neg then (((2 ^ 64 : Int) - (p.1 : Int)) % (2 ^ 64 : Int)).toNat else p.1, p.2)

/-- The `%llu` conversion: skip whitespace, optional sign, digits. -/
def scanULL (s : List Char) : Option (Nat × List Char) := scanULLNoWs (skipWs s)

/-- The `%c` conversion (no whitespace skip of its own): exactly one
character. -/
def scanChar : List Char → Option (Char × List Char)
  | [] => none
  | c :: cs => some (c, cs)

/-- A literal (non-blank) character of the format string. -/
def expectChar (x : Char) : List Char → Option (List Char)
  | [] => none
  | c :: cs => if c == x then some cs else none

/-- The `%[^)]` conversion: a nonempty run of characters other than `')'`. -/
def scanComm (s : List Char) : Option (List Char × List Char) :=
  let t := s.takeWhile (fun c => !(c == ')'))
  if t.isEmpty then none else some (t, s.dropWhile (fun c => !(c == ')')))

/-! ## `PROC_STAT` and its parser (`procinfo_unix.cpp:68-167`) -/

/-- The 39 fields of `struct PROC_STAT`, in declaration order.  Fields read
with `%llu` are `Nat`, fields read with `%d`/`%lld` are `Int`, `comm` is
read with `%[^)]` and `state` with `%c`. -/
structure PROC_STAT where
  pid : Int
  comm : List Char
  state : Char
  ppid : Int
  pgrp : Int
  session : Int
  tty_nr : Int
  tpgid : Int
  flags : Nat
  minflt : Nat
  cminflt : Nat
  majflt : Nat
  cmajflt : Nat
  utime : Nat
  stime : Nat
  cutime : Int
  cstime : Int
  priority : Int
  nice : Int
  zero : Int
  itrealvalue : Int
  starttime : Nat
  vsize : Nat
  rss : Int
  rlim : Nat
  startcode : Nat
  endcode : Nat
  startstack : Nat
  kstkesp : Nat
  kstkeip : Nat
  signal : Nat
  blocked : Nat
  sigignore : Nat
  sigcatch : Nat
  wchan : Nat
  nswap : Nat
  cnswap : Nat
  exit_signal : Int
  processor : Int
deriving DecidableEq

/-- Conversions 1-3 of the format string: `"%d (%[^)]) %c"`. -/
structure StatHead where
  pid : Int
  comm : List Char
  state : Char

/-- Conversions 4-8: `"%lld %lld %lld %lld %lld"`
(`ppid pgrp session tty_nr tpgid`). -/
structure StatGrpA where
  ppid : Int
  pgrp : Int
  session : Int
  tty_nr : Int
  tpgid : Int

/-- Conversions 9-15: `"%llu %llu %llu %llu %llu %llu %llu"`
(`flags minflt cminflt majflt cmajflt utime stime`). -/
structure StatGrpB where
  flags : Nat
  minflt : Nat
  cminflt : Nat
  majflt : Nat
  cmajflt : Nat
  utime : Nat
  stime : Nat

/-- Conversions 16-21: `"%lld %lld %lld %lld %lld %lld"`
(`cutime cstime priority nice zero itrealvalue`). -/
structure StatGrpC where
  cutime : Int
  cstime : Int
  priority : Int
  nice : Int
  zero : Int
  itrealvalue : Int

/-- Conversions 22-24: `"%llu %llu %lld"` (`starttime vsize rss`). -/
structure StatGrpD where
  starttime : Nat
  vsize : Nat
  rss : Int

/-- Conversions 25-37: thirteen `"%llu"`
(`rlim startcode endcode startstack kstkesp kstkeip signal blocked
sigignore sigcatch wchan nswap cnswap`). -/
structure StatGrpE where
  rlim : Nat
  startcode : Nat
  endcode : Nat
  startstack : Nat
  kstkesp : Nat
  kstkeip : Nat
  signal : Nat
  blocked : Nat
  sigignore : Nat
  sigcatch : Nat
  wchan : Nat
  nswap : Nat
  cnswap : Nat

/-- Conversions 38-39: `"%lld %lld"` (`exit_signal processor`). -/
structure StatGrpF where
  exit_signal : Int
  processor : Int

/-- Parse conversions 1-3 (`"%d (%[^)]) %c"`). -/
def scanHead (s : List Char) : Option (StatHead × List Char) := do
  let (pid, s) ← scanInt s
  let s ← expectChar '(' (skipWs s)
  let (comm, s) ← scanComm s
  let s ← expectChar ')' s
  let (state, s) ← scanChar (skipWs s)
  pure (⟨pid, comm, state⟩, s)

/-- Parse conversions 4-8. -/
def scanGrpA (s : List Char) : Option (StatGrpA × List Char) := do
  let (a, s) ← scanInt s
  let (b, s) ← scanInt s
  let (c, s) ← scanInt s
  let (d, s) ← scanInt s
  let (e, s) ← scanInt s
  pure (⟨a, b, c, d, e⟩, s)

/-- Parse conversions 9-15. -/
def scanGrpB (s : List Char) : Option (StatGrpB × List Char) := do
  let (a, s) ← scanULL s
  let (b, s) ← scanULL s
  let (c, s) ← scanULL s
  let (d, s) ← scanULL s
  let (e, s) ← scanULL s
  let (f, s) ← scanULL s
  let (g, s) ← scanULL s
  pure (⟨a, b, c, d, e, f, g⟩, s)

/-- Parse conversions 16-21. -/
def scanGrpC (s : List Char) : Option (StatGrpC × List Char) := do
  let (a, s) ← scanInt s
  let (b, s) ← scanInt s
  let (c, s) ← scanInt s
  let (d, s) ← scanInt s
  let (e, s) ← scanInt s
  let (f, s) ← scanInt s
  pure (⟨a, b, c, d, e, f⟩, s)

/-- Parse conversions 22-24. -/
def scanGrpD (s : List Char) : Option (StatGrpD × List Char) := do
  let (a, s) ← scanULL s
  let (b, s) ← scanULL s
  let (c, s) ← scanInt s
  pure (⟨a, b, c⟩, s)

/-- Parse conversions 25-31 (first seven of the thirteen `%llu`). -/
def scanGrpE1 (s : List Char) : Option ((Nat × Nat × Nat × Nat × Nat × Nat × Nat) × List Char) := do
  let (a, s) ← scanULL s
  let (b, s) ← scanULL s
  let (c, s) ← scanULL s
  let (d, s) ← scanULL s
  let (e, s) ← scanULL s
  let (f, s) ← scanULL s
  let (g, s) ← scanULL s
  pure ((a, b, c, d, e, f, g), s)

/-- Parse conversions 32-37 (last six of the thirteen `%llu`). -/
def scanGrpE2 (s : List Char) : Option ((Nat × Nat × Nat × Nat × Nat × Nat) × List Char) := do
  let (a, s) ← scanULL s
  let (b, s) ← scanULL s
  let (c, s) ← scanULL s
  let (d, s) ← scanULL s
  let (e, s) ← scanULL s
  let (f, s) ← scanULL s
  pure ((a, b, c, d, e, f), s)

/-- Parse conversions 25-37. -/
def scanGrpE (s : List Char) : Option (StatGrpE × List Char) := do
  let ((a, b, c, d, e, f, g), s) ← scanGrpE1 s
  let ((h, i, j, k, l, m), s) ← scanGrpE2 s
  pure (⟨a, b, c, d, e, f, g, h, i, j, k, l, m⟩, s)

/-- Parse conversions 38-39. -/
def scanGrpF (s : List Char) : Option (StatGrpF × List Char) := do
  let (a, s) ← scanInt s
  let (b, s) ← scanInt s
  pure (⟨a, b⟩, s)

/-- Assemble the `PROC_STAT` struct from the seven conversion groups. -/
def buildStat (h : StatHead) (a : StatGrpA) (b : StatGrpB) (c : StatGrpC)
    (d : StatGrpD) (e : StatGrpE) (f : StatGrpF) : PROC_STAT :=
  ⟨h.pid, h.comm, h.state, a.ppid, a.pgrp, a.session, a.tty_nr, a.tpgid,
    b.flags, b.minflt, b.cminflt, b.majflt, b.cmajflt, b.utime, b.stime,
    c.cutime, c.cstime, c.priority, c.nice, c.zero, c.itrealvalue,
    d.starttime, d.vsize, d.rss,
    e.rlim, e.startcode, e.endcode, e.startstack, e.kstkesp, e.kstkeip,
    e.signal, e.blocked, e.sigignore, e.sigcatch, e.wchan, e.nswap, e.cnswap,
    f.exit_signal, f.processor⟩

/-- The `sscanf` call of `PROC_STAT::parse`, conversion by conversion in
the order of the format string
`"%d (%[^)]) %c %lld*5 %llu*7 %lld*6 %llu*2 %lld %llu*13 %lld %lld"`.
Returns the populated struct and the unconsumed input; `none` when any of
the 39 conversions fails (i.e. `sscanf` returned `n < 39`). -/
def parseProcStat (s : List Char) : Option (PROC_STAT × List Char) := do
  let (h, s) ← scanHead s
  let (a, s) ← scanGrpA s
  let (b, s) ← scanGrpB s
  let (c, s) ← scanGrpC s
  let (d, s) ← scanGrpD s
  let (e, s) ← scanGrpE s
  let (f, s) ← scanGrpF s
  pure (buildStat h a b c d e f, s)

/-- `PROC_STAT::parse` (`procinfo_unix.cpp:112-167`): returns `0` when the
`sscanf` assigned all `n == 39` conversions, else logs and returns `1`. -/
def PROC_STAT.parse (buf : List Char) : Int :=
  match parseProcStat buf with
  | some _ => 0
  | none => 1

/-! ## Decimal printing (for synthetic round-trip records) -/

/-- Decimal digit character. -/
def digitChar (d : Nat) : Char := Char.ofNat (48 + d)

/-- Fuel-indexed decimal printer (structural recursion so that the kernel
can evaluate it). -/
def natDigitsAux : Nat → Nat → List Char
  | 0, _ => []
  | fuel + 1, n =>
    if n < 10 then [digitChar n]
    else natDigitsAux fuel (n / 10) ++ [digitChar (n % 10)]

/-- Decimal representation of a `Nat`, no sign, no leading zeros. -/
def natDigits (n : Nat) : List Char := natDigitsAux (n + 1) n

/-- Decimal representation of an `Int`, with a `'-'` sign when negative. -/
def intDigits (v : Int) : List Char :=
  if v < 0 then '-' :: natDigits v.natAbs else natDigits v.toNat

/-- One space-separated signed field of a synthetic stat line. -/
def fieldS (v : Int) (rest : List Char) : List Char := ' ' :: (intDigits v ++ rest)

/-- One space-separated unsigned field of a synthetic stat line. -/
def fieldU (u : Nat) (rest : List Char) : List Char := ' ' :: (natDigits u ++ rest)

/-- The 36 space-separated numeric fields of a synthetic stat line
(conversions 4-39 in documented order), followed by `rest`. -/
def mkStatTail (ps : PROC_STAT) (rest : List Char) : List Char :=
  fieldS ps.ppid <| fieldS ps.pgrp <| fieldS ps.session <| fieldS ps.tty_nr <|
  fieldS ps.tpgid <| fieldU ps.flags <| fieldU ps.minflt <| fieldU ps.cminflt <|
  fieldU ps.majflt <| fieldU ps.cmajflt <| fieldU ps.utime <| fieldU ps.stime <|
  fieldS ps.cutime <| fieldS ps.cstime <| fieldS ps.priority <| fieldS ps.nice <|
  fieldS ps.zero <| fieldS ps.itrealvalue <| fieldU ps.starttime <|
  fieldU ps.vsize <| fieldS ps.rss <| fieldU ps.rlim <| fieldU ps.startcode <|
  fieldU ps.endcode <| fieldU ps.startstack <| fieldU ps.kstkesp <|
  fieldU ps.kstkeip <| fieldU ps.signal <| fieldU ps.blocked <|
  fieldU ps.sigignore <| fieldU ps.sigcatch <| fieldU ps.wchan <|
  fieldU ps.nswap <| fieldU ps.cnswap <| fieldS ps.exit_signal <|
  fieldS ps.processor rest

/-- A synthetic `/proc/<pid>/stat` line holding the 39 documented fields of
`ps` in their documented positions, followed by `rest`. -/
def mkStatLine (ps : PROC_STAT) (rest : List Char) : List Char :=
  intDigits ps.pid ++
    (' ' :: '(' :: (ps.comm ++ (')' :: ' ' :: ps.state :: mkStatTail ps rest)))

/-- Spec-side notion (refinement reading of the spec's words, for
comparison with the source parser): a line *decomposes into exactly the 39
documented fields* when the 39 conversions succeed and nothing but
whitespace remains after them. -/
def decomposesExactly39 (s : List Char) : Bool :=
  match parseProcStat s with
  | some (_, r) => r.all isSpaceCh
  | none => false

/-- Spec-side notion: a directory-entry name that represents a *purely
numeric* process identifier (nonempty, all characters decimal digits). -/
def isPurelyNumeric (s : List Char) : Bool :=
  !s.isEmpty && s.all isDigitCh

/-! ## Case-insensitive substring search (`strcasestr`) and `strlcpy` -/

/-- ASCII lower-casing, as `strcasestr` compares in the `"C"` locale. -/
def lowerCh (c : Char) : Char :=
  if 65 ≤ c.toNat && c.toNat ≤ 90 then Char.ofNat (c.toNat + 32) else c

/-- `needle` is a prefix of `hay` (character-wise). -/
def prefixAt : List Char → List Char → Bool
  | [], _ => true
  | _ :: _, [] => false
  | a :: as, b :: bs => a == b && prefixAt as bs

/-- `needle` occurs as a contiguous substring of `hay`. -/
def hasSubstr (needle : List Char) : List Char → Bool
  | [] => needle.isEmpty
  | b :: bs => prefixAt needle (b :: bs) || hasSubstr needle bs

/-- `strcasestr(hay, needle) != NULL`: case-insensitive substring test. -/
def strcasestrB (hay needle : List Char) : Bool :=
  hasSubstr (needle.map lowerCh) (hay.map lowerCh)

/-- `strlcpy(dst, src, n)` stores at most `n - 1` characters of `src`
(plus the terminating NUL). -/
def strlcpyModel (src : List Char) (n : Nat) : List Char := src.take (n - 1)

/-! ## `PROCINFO` and the snapshot map -/

/-- Modelled from the spec: `PROCINFO` is declared in `procinfo.h`, which
is not under `src/`; the spec's *ProcessInfo* table gives its normalized
fields (§3).  Only the fields this file populates are modelled.  The C
`double` fields (`swap_size`, `working_set_size`, `user_time`,
`kernel_time`) are modelled as exact rationals. -/
structure PROCINFO where
  id : Int
  parentid : Int
  command : List Char
  swap_size : ℚ
  working_set_size : ℚ
  page_fault_count : Nat
  user_time : ℚ
  kernel_time : ℚ
  is_boinc_app : Bool
  is_low_priority : Bool
deriving DecidableEq

/-- `PROCINFO::clear()`: every field zero/empty-initialized (spec §3
invariant: "every field is zero/empty-initialized before population"). -/
def PROCINFO.clear : PROCINFO :=
  ⟨0, 0, [], 0, 0, 0, 0, 0, false, false⟩

/-- Modelled from the spec: `PROC_MAP` is declared in `procinfo.h` (not
under `src/`) as the snapshot "mapping from process id to ProcessInfo,
unique keys" (§3), a C++ standard map.  Modelled as an association list in
insertion order. -/
abbrev PROC_MAP : Type := List (Int × PROCINFO)

/-- `PROC_MAP::insert(std::pair(id, p))`: C++ standard-library map
`insert` adds the pair only when the key is *not* already present; an
existing entry under the same key is left unchanged (this is the semantics
of `std::map`/`std::unordered_map` `insert`, the call sites at
`procinfo_unix.cpp:218,254`). -/
def mapInsert (m : PROC_MAP) (k : Int) (v : PROCINFO) : PROC_MAP :=
  if (List.any m fun kv => kv.1 == k) then m else m ++ [(k, v)]

/-- Key membership in the snapshot map. -/
def mapMem (k : Int) (m : PROC_MAP) : Bool :=
  List.any m fun kv => kv.1 == k

/-- Lookup in the snapshot map (first entry with the key). -/
def mapLookup (k : Int) (m : PROC_MAP) : Option PROCINFO :=
  match m with
  | [] => none
  | kv :: t => if kv.1 == k then some kv.2 else mapLookup k t

/-- Modelled from the spec: `find_children` (the external Lineage
Resolver, §6) "may read and augment entries in the snapshot but must not
remove entries or change their `id`/`parentid` keys"; none of the fields
modelled here are changed by it, so it is modelled as the identity. -/
def find_children (m : PROC_MAP) : PROC_MAP := m

/-! ## The Linux-family snapshot builder (`procinfo_unix.cpp:219-255`) -/

/-- One `/proc` directory entry as the scan sees it: the `readdir` name
and the state of `/proc/<name>/stat`:
`none` — `fopen` fails (process vanished / inaccessible);
`some none` — opens but `fgets` returns NULL (empty read);
`some (some buf)` — opens and the first line read is `buf`. -/
structure PROC_ENTRY where
  name : List Char
  stat : Option (Option (List Char))

/-- The `/proc` pseudo-directory as one scan observes it: whether
`opendir("/proc")` succeeds, and the entries `readdir` yields in order. -/
structure PROC_FS where
  procOpens : Bool
  entries : List PROC_ENTRY

/-- `ERR_NULL`.  Modelled from the spec: `error_numbers.h` is not under
`src/`; the spec only requires a fixed non-zero code for the
`fgets == NULL` (empty read) failure class.  BOINC's value is `-116`. -/
def ERR_NULL : Int := -116

/-- Normalization of one successfully parsed record
(`procinfo_unix.cpp:234-253`): unit conversions and derived flags.
`pidSelf` is the scanning process's `getpid()`, `pagesize` the host's
`getpagesize()`. -/
def mkProcinfo (pidSelf : Int) (pagesize : Nat) (ps : PROC_STAT) : PROCINFO :=
  { PROCINFO.clear with
    id := ps.pid
    parentid := ps.ppid
    swap_size := (ps.vsize : ℚ)
    working_set_size := (ps.rss : ℚ) * (pagesize : ℚ)
    page_fault_count := ps.majflt + ps.minflt
    user_time := (ps.utime : ℚ) / 100
    kernel_time := (ps.stime : ℚ) / 100
    command := strlcpyModel ps.comm 256
    is_boinc_app :=
      (ps.pid == pidSelf) || strcasestrB (strlcpyModel ps.comm 256) ("boinc".toList)
    is_low_priority := ps.priority == 39 }

/-- One iteration of the Linux-family `while (1)` loop
(`procinfo_unix.cpp:184-187` and `219-255`) on directory entry `e`, with
`st = (pm, final_retval)`. -/
def procinfo_step (pidSelf : Int) (pagesize : Nat) (st : PROC_MAP × Int)
    (e : PROC_ENTRY) : PROC_MAP × Int :=
  if headIsDigit e.name = false then st
  else
    match e.stat with
    | none => st
    | some none => (st.1, ERR_NULL)
    | some (some buf) =>
      match parseProcStat buf with
      | none => (st.1, 1)
      | some (ps, _) =>
        let p := mkProcinfo pidSelf pagesize ps
        (mapInsert st.1 p.id p, st.2)

/-- `procinfo_setup` (`procinfo_unix.cpp:171-260`), Linux family: build
the table of all processes.  The caller-supplied `PROC_MAP` starts empty
(spec §3: "created empty at the start of a scan"); when `/proc` cannot be
opened the function returns `0` at once. -/
def procinfo_setup (pidSelf : Int) (pagesize : Nat) (fs : PROC_FS) :
    PROC_MAP × Int :=
  if fs.procOpens = false then (([] : PROC_MAP), 0)
  else
    let st := fs.entries.foldl (procinfo_step pidSelf pagesize) (([] : PROC_MAP), 0)
    (find_children st.1, st.2)

/-! ## The Solaris-family branch (`procinfo_unix.cpp:189-218`,
`HAVE_PROCFS_H && HAVE__PROC_SELF_PSINFO`) -/

/-- The fields of Solaris `psinfo_t` used by the code: pid, parent pid,
size of process image and resident set size (both in kilobytes), and the
short command name `pr_fname`. -/
structure psinfo_t where
  pr_pid : Int
  pr_ppid : Int
  pr_size : Nat
  pr_rssize : Nat
  pr_fname : List Char

/-- A Solaris `timestruc_t`: seconds and nanoseconds. -/
structure timestruc_t where
  tv_sec : Nat
  tv_nsec : Nat

/-- The fields of Solaris `prusage_t` used by the code: user and system
CPU time, and major/minor fault counters. -/
structure prusage_t where
  pr_utime : timestruc_t
  pr_stime : timestruc_t
  pr_majf : Nat
  pr_minf : Nat

/-- One `/proc` directory entry as the Solaris-family scan sees it: the
`readdir` name and the state of the two per-process files.
For each file: `none` — `fopen` fails; `some none` — opens but the
whole-struct `fread` returns fewer than one full struct (truncated read);
`some (some v)` — a complete struct is read. -/
structure SOLARIS_ENTRY where
  name : List Char
  psinfo : Option (Option psinfo_t)
  usage : Option (Option prusage_t)

/-- The `/proc` pseudo-directory for a Solaris-family scan. -/
structure SOLARIS_FS where
  procOpens : Bool
  entries : List SOLARIS_ENTRY

/-- Population of `PROCINFO` from a fully read `psinfo_t`
(`procinfo_unix.cpp:196-202`): identity fields, sizes converted from
kilobytes (`* 1024.`), command via `strlcpy`. -/
def psinfoToProcinfo (si : psinfo_t) : PROCINFO :=
  { PROCINFO.clear with
    id := si.pr_pid
    parentid := si.pr_ppid
    swap_size := (si.pr_size : ℚ) * 1024
    working_set_size := (si.pr_rssize : ℚ) * 1024
    command := strlcpyModel si.pr_fname 256 }

/-- Population of the time/fault fields from a fully read `prusage_t`
(`procinfo_unix.cpp:208-215`).  Note the source computes `kernel_time`
from `pr_stime.tv_sec` but `pr_utime.tv_nsec` (line 212). -/
def usageApply (p : PROCINFO) (u : prusage_t) : PROCINFO :=
  { p with
    user_time := (u.pr_utime.tv_sec : ℚ) + (u.pr_utime.tv_nsec : ℚ) / 1000000000
    kernel_time := (u.pr_stime.tv_sec : ℚ) + (u.pr_utime.tv_nsec : ℚ) / 1000000000
    page_fault_count := u.pr_majf + u.pr_minf }

/-- One iteration of the Solaris-family loop (`procinfo_unix.cpp:184-187`
and `189-218`) on directory entry `e`. -/
def procinfo_step_solaris (pidSelf : Int) (st : PROC_MAP × Int)
    (e : SOLARIS_ENTRY) : PROC_MAP × Int :=
  if headIsDigit e.name = false then st
  else
    match e.psinfo with
    | none => st
    | some psOpt =>
      let p1 := match psOpt with
        | none => PROCINFO.clear
        | some si => psinfoToProcinfo si
      match e.usage with
      | none => st
      | some uOpt =>
        let p2 := match uOpt with
          | none => p1
          | some u => usageApply p1 u
        let p3 := { p2 with
          is_boinc_app := (p2.id == pidSelf) || strcasestrB p2.command ("boinc".toList) }
        (mapInsert st.1 p3.id p3, st.2)

/-- `procinfo_setup`, Solaris family: same enumeration skeleton as the
Linux family; note that `final_retval` is never written in this branch. -/
def procinfo_setup_solaris (pidSelf : Int) (fs : SOLARIS_FS) :
    PROC_MAP × Int :=
  if fs.procOpens = false then (([] : PROC_MAP), 0)
  else
    let st := fs.entries.foldl (procinfo_step_solaris pidSelf) (([] : PROC_MAP), 0)
    (find_children st.1, st.2)

/-! ## Failure/success classification of one Linux-family entry -/

/-- The failure code, if any, that processing entry `e` assigns to
`final_retval`: `ERR_NULL` for an empty read, `1` for a parse failure;
`none` for skipped entries (non-digit name, unopenable file) and for
successfully parsed entries. -/
def entryFailCode (e : PROC_ENTRY) : Option Int :=
  if headIsDigit e.name = false then none
  else
    match e.stat with
    | none => none
    | some none => some ERR_NULL
    | some (some buf) =>
      match parseProcStat buf with
      | none => some 1
      | some _ => none

/-- The pid under which entry `e` inserts a record, when it parses
successfully. -/
def entryGoodPid (e : PROC_ENTRY) : Option Int :=
  if headIsDigit e.name = false then none
  else
    match e.stat with
    | some (some buf) => (parseProcStat buf).map fun pr => pr.1.pid
    | _ => none

/-- The code the scan's `final_retval` holds after processing `l`: the
failure code of the last failing entry, if any. -/
def lastFail (l : List PROC_ENTRY) : Option Int :=
  l.foldl (fun acc e => match entryFailCode e with
    | some c => some c
    | none => acc) none

/-- The numeric value of a digit string continuing the accumulator `acc`
(the loop invariant of `scanDigitsAux`). -/
def accVal (acc : Nat) (ds : List Char) : Nat :=
  ds.foldl (fun a c => a * 10 + (c.toNat - 48)) acc

/-! ## Decomposition of the Linux-family loop body

`procinfo_step` acts independently on the map component and on the
`final_retval` component; `stepMap`/`stepCode` are the two projections. -/

/-- The effect of one loop iteration on the snapshot map alone. -/
def stepMap (pidSelf : Int) (pagesize : Nat) (m : PROC_MAP) (e : PROC_ENTRY) : PROC_MAP :=
  if headIsDigit e.name = false then m
  else
    match e.stat with
    | none => m
    | some none => m
    | some (some buf) =>
      match parseProcStat buf with
      | none => m
      | some (ps, _) =>
        let p := mkProcinfo pidSelf pagesize ps
        mapInsert m p.id p

/-- The effect of one loop iteration on `final_retval` alone. -/
def stepCode (c : Int) (e : PROC_ENTRY) : Int := (entryFailCode e).getD c

/-! ## Concrete inputs for witnesses and counterexamples -/

/-- A concrete 39-field stat record (pid 123, command `kworker/0:1`,
state `S`, utime 5, stime 3, priority 20, vsize 4096, rss 7). -/
def psExA : PROC_STAT :=
  ⟨123, "kworker/0:1".toList, 'S', 2, 0, 0, 0, -1, 69238880, 0, 0, 0, 0, 5, 3,
    0, 0, 20, 0, 1, 0, 30, 4096, 7, 18446744073709551615, 0, 0, 0, 0, 0, 0,
    2147483647, 0, 0, 0, 0, 17, 1, 0⟩

/-- A second concrete record, pid 5, command `aaa`. -/
def psExB : PROC_STAT :=
  ⟨5, "aaa".toList, 'R', 1, 0, 0, 0, 0, 0, 2, 0, 4, 0, 200, 300, 0, 0, 39, 19,
    0, 0, 10, 3, 2, 0, 0, 0, 0, 0, 0, 0, 0, 0, 0, 0, 0, 0, 17, 0⟩

/-- A third concrete record, same pid 5, command `bbb`. -/
def psExC : PROC_STAT :=
  ⟨5, "bbb".toList, 'S', 1, 0, 0, 0, 0, 0, 0, 0, 0, 0, 7, 8, 0, 0, 20, 0,
    0, 0, 11, 9, 4, 0, 0, 0, 0, 0, 0, 0, 0, 0, 0, 0, 0, 0, 17, 0⟩

/-- A record with pid 999 (used behind the non-numeric name `1foo`). -/
def psExD : PROC_STAT :=
  ⟨999, "xyz".toList, 'S', 1, 0, 0, 0, 0, 0, 0, 0, 0, 0, 1, 2, 0, 0, 20, 0,
    0, 0, 12, 6, 5, 0, 0, 0, 0, 0, 0, 0, 0, 0, 0, 0, 0, 0, 17, 0⟩

/-- C1 counterexample line: a well-formed 39-field record followed by two
further numeric fields (as a newer-kernel stat line has). -/
def lineC1 : List Char := mkStatLine psExA (' ' :: '7' :: ' ' :: '8' :: [])

/-- C2 witness scan entries: a good entry, a malformed entry, an empty
read, an unopenable entry and a non-numeric name. -/
def entC2 : List PROC_ENTRY :=
  [⟨"5".toList, some (some (mkStatLine psExB []))⟩,
   ⟨"6".toList, some (some ("garbage".toList))⟩,
   ⟨"7".toList, some none⟩,
   ⟨"8".toList, none⟩,
   ⟨"self".toList, some (some (mkStatLine psExA []))⟩]

/-- C3 counterexample scan: one good entry whose `vsize` is 3 (and rss 2),
scanned with page size 4096. -/
def psC3 : PROC_STAT :=
  ⟨7, "pq".toList, 'S', 1, 0, 0, 0, 0, 0, 0, 0, 0, 0, 0, 0, 0, 0, 20, 0,
    0, 0, 13, 3, 2, 0, 0, 0, 0, 0, 0, 0, 0, 0, 0, 0, 0, 0, 17, 0⟩

/-- The C3 scan environment. -/
def fsC3 : PROC_FS := ⟨true, [⟨"7".toList, some (some (mkStatLine psC3 []))⟩]⟩

/-- C4 psinfo: pid 9. -/
def siC4 : psinfo_t := ⟨9, 1, 0, 0, "app".toList⟩

/-- C4 usage: user time (1 s, 100000000 ns), kernel time (5 s, 700000000 ns). -/
def uC4 : prusage_t := ⟨⟨1, 100000000⟩, ⟨5, 700000000⟩, 0, 0⟩

/-- The C4 Solaris scan environment. -/
def sfsC4 : SOLARIS_FS := ⟨true, [⟨"9".toList, some (some siC4), some (some uC4)⟩]⟩

/-- C5 counterexample: a truncated `psinfo` read followed by a complete
`usage` read. -/
def sfsC5 : SOLARIS_FS := ⟨true, [⟨"3".toList, some none, some (some uC4)⟩]⟩

/-- C6 counterexample scan: two entries parse to the same pid 5 with
different commands (`aaa` first, `bbb` second). -/
def fsC6 : PROC_FS :=
  ⟨true, [⟨"5".toList, some (some (mkStatLine psExB []))⟩,
          ⟨"5".toList, some (some (mkStatLine psExC []))⟩]⟩

/-- C7 counterexample scan: the single entry is named `1foo` (first
character a digit, not purely numeric) and exposes a record with pid 999. -/
def fsC7 : PROC_FS := ⟨true, [⟨"1foo".toList, some (some (mkStatLine psExD []))⟩]⟩

/-- A nonempty directory behind an unopenable `/proc` (C8 witness). -/
def fsC8 : PROC_FS := ⟨false, [⟨"5".toList, some (some (mkStatLine psExB []))⟩]⟩

/-- The Solaris C8 witness environment. -/
def sfsC8 : SOLARIS_FS := ⟨false, [⟨"9".toList, some (some siC4), some (some uC4)⟩]⟩

/-- C9 witness psinfo: pid 9, command `xBoIncy` (mixed-case `boinc`
embedded mid-name). -/
def siC9 : psinfo_t := ⟨9, 1, 0, 0, "xBoIncy".toList⟩

/-- The C9 witness Solaris scan: complete psinfo read, truncated usage
read (so no time fields are involved). -/
def sfsC9 : SOLARIS_FS := ⟨true, [⟨"9".toList, some (some siC9), some none⟩]⟩

/-- The PROCINFO entry the C9 witness scan stores (complete `psinfo`,
truncated `usage`). -/
def p3C9 : PROCINFO :=
  { psinfoToProcinfo siC9 with
    is_boinc_app := ((psinfoToProcinfo siC9).id == 1) ||
      strcasestrB (psinfoToProcinfo siC9).command ("boinc".toList) }

/-- C10 witness: one good entry, then an empty read, then a good entry. -/
def fsC10e : PROC_ENTRY := ⟨"7".toList, some none⟩

theorem digitChar_toNat : ∀ d, d < 10 → (digitChar d).toNat = 48 + d := by decide

theorem isDigitCh_digitChar : ∀ d, d < 10 → isDigitCh (digitChar d) = true := by decide

theorem natDigitsAux_all_digit : ∀ fuel n, n < fuel →
    ∀ c ∈ natDigitsAux fuel n, isDigitCh c = true := by
  intro fuel
  induction fuel with
  | zero => omega
  | succ fuel ih =>
    intro n hn c hc
    rw [natDigitsAux] at hc
    by_cases h10 : n < 10
    · simp [h10] at hc
      subst hc
      exact isDigitCh_digitChar n h10
    · simp [h10, List.mem_append] at hc
      rcases hc with hc | hc
      · exact ih (n / 10) (by omega) c hc
      · subst hc
        exact isDigitCh_digitChar (n % 10) (by omega)

theorem natDigitsAux_ne_nil : ∀ fuel n, n < fuel → natDigitsAux fuel n ≠ [] := by
  intro fuel n hn
  cases fuel with
  | zero => omega
  | succ fuel =>
    rw [natDigitsAux]
    by_cases h10 : n < 10 <;> simp [h10]

theorem accVal_natDigitsAux : ∀ fuel n acc, n < fuel →
    accVal acc (natDigitsAux fuel n) =
      acc * 10 ^ (natDigitsAux fuel n).length + n := by
  intro fuel
  induction fuel with
  | zero => omega
  | succ fuel ih =>
    intro n acc hn
    rw [natDigitsAux]
    by_cases h10 : n < 10
    · simp [h10, accVal, digitChar_toNat n h10]
    · have hdiv : n / 10 < fuel := by omega
      simp only [h10, if_false, ite_false]
      rw [accVal, List.foldl_append]
      have h1 : (natDigitsAux fuel (n / 10) ++ [digitChar (n % 10)]).length
          = (natDigitsAux fuel (n / 10)).length + 1 := by simp
      rw [h1]
      have h2 := ih (n / 10) acc hdiv
      rw [accVal] at h2
      simp only [List.foldl_cons, List.foldl_nil]
      rw [h2, digitChar_toNat (n % 10) (by omega)]
      rw [pow_succ, ← mul_assoc]
      omega

theorem natDigits_all_digit (n : Nat) : ∀ c ∈ natDigits n, isDigitCh c = true :=
  natDigitsAux_all_digit (n + 1) n (Nat.lt_succ_self n)

theorem natDigits_ne_nil (n : Nat) : natDigits n ≠ [] :=
  natDigitsAux_ne_nil (n + 1) n (Nat.lt_succ_self n)

theorem accVal_natDigits (n acc : Nat) :
    accVal acc (natDigits n) = acc * 10 ^ (natDigits n).length + n :=
  accVal_natDigitsAux (n + 1) n acc (Nat.lt_succ_self n)

theorem scanDigitsAux_append : ∀ ds r acc, (∀ c ∈ ds, isDigitCh c = true) →
    headIsDigit r = false → scanDigitsAux acc (ds ++ r) = (accVal acc ds, r) := by
  intro ds
  induction ds with
  | nil =>
    intro r acc _ hr
    cases r with
    | nil => rfl
    | cons c cs =>
      rw [headIsDigit] at hr
      simp [scanDigitsAux, hr, accVal]
  | cons c ds ih =>
    intro r acc hds hr
    have hc : isDigitCh c = true := hds c (by simp)
    simp only [List.cons_append, scanDigitsAux, hc, if_true, List.append_eq]
    rw [ih r _ (fun x hx => hds x (by simp [hx])) hr]
    rfl

theorem scanDigits_natDigits (n : Nat) (r : List Char) (hr : headIsDigit r = false) :
    scanDigits (natDigits n ++ r) = some (n, r) := by
  cases hnd : natDigits n with
  | nil => exact absurd hnd (natDigits_ne_nil n)
  | cons c cs =>
    have hall := natDigits_all_digit n
    rw [hnd] at hall
    have hc : isDigitCh c = true := hall c (by simp)
    simp only [List.cons_append, scanDigits, hc, if_true, List.append_eq]
    rw [scanDigitsAux_append cs r _ (fun x hx => hall x (by simp [hx])) hr]
    have hv : accVal (c.toNat - 48) cs = n := by
      have h0 : accVal 0 (c :: cs) = accVal (c.toNat - 48) cs := by
        simp [accVal]
      have := accVal_natDigits n 0
      rw [hnd, h0] at this
      omega
    rw [hv]

theorem not_space_of_digit {c : Char} (h : isDigitCh c = true) : isSpaceCh c = false := by
  by_contra hc
  rw [Bool.not_eq_false, isSpaceCh, Bool.or_eq_true, Bool.and_eq_true] at hc
  rw [isDigitCh, Bool.and_eq_true] at h
  simp only [beq_iff_eq, decide_eq_true_eq] at h hc
  omega

theorem beq_dash_false_of_digit {c : Char} (h : isDigitCh c = true) : (c == '-') = false := by
  have hne : c ≠ '-' := by
    intro he
    subst he
    simp [isDigitCh] at h
  exact beq_eq_false_iff_ne.mpr hne

theorem beq_plus_false_of_digit {c : Char} (h : isDigitCh c = true) : (c == '+') = false := by
  have hne : c ≠ '+' := by
    intro he
    subst he
    simp [isDigitCh] at h
  exact beq_eq_false_iff_ne.mpr hne

theorem skipWs_cons_not_space {c : Char} (l : List Char) (h : isSpaceCh c = false) :
    skipWs (c :: l) = c :: l := by
  simp [skipWs, h]

theorem skipWs_cons_space (l : List Char) : skipWs (' ' :: l) = skipWs l := by
  rw [skipWs, if_pos (show isSpaceCh ' ' = true by decide)]

theorem scanSign_digit {c : Char} (l : List Char) (h : isDigitCh c = true) :
    scanSign (c :: l) = (false, c :: l) := by
  simp [scanSign, beq_dash_false_of_digit h, beq_plus_false_of_digit h]

theorem scanIntNoWs_natDigits (m : Nat) (r : List Char) (hr : headIsDigit r = false) :
    scanIntNoWs (natDigits m ++ r) = some ((m : Int), r) := by
  cases hnd : natDigits m with
  | nil => exact absurd hnd (natDigits_ne_nil m)
  | cons c cs =>
    have hc : isDigitCh c = true := by
      have hall := natDigits_all_digit m
      rw [hnd] at hall
      exact hall c (by simp)
    have hd : scanDigits (natDigits m ++ r) = some (m, r) := scanDigits_natDigits m r hr
    rw [hnd, List.cons_append] at hd
    simp [scanIntNoWs, scanSign_digit _ hc, hd]

theorem skipWs_natDigits (m : Nat) (r : List Char) :
    skipWs (natDigits m ++ r) = natDigits m ++ r := by
  cases hnd : natDigits m with
  | nil => exact absurd hnd (natDigits_ne_nil m)
  | cons c cs =>
    have hc : isDigitCh c = true := by
      have hall := natDigits_all_digit m
      rw [hnd] at hall
      exact hall c (by simp)
    exact skipWs_cons_not_space _ (not_space_of_digit hc)

theorem scanIntNoWs_intDigits (v : Int) (r : List Char) (hr : headIsDigit r = false) :
    scanIntNoWs (intDigits v ++ r) = some (v, r) := by
  by_cases hv : v < 0
  · rw [intDigits, if_pos hv]
    simp only [List.cons_append, scanIntNoWs, scanSign, List.append_eq]
    have h1 : (('-' : Char) == '-') = true := by decide
    simp only [h1, if_true]
    rw [scanDigits_natDigits v.natAbs r hr]
    have hva : -(v.natAbs : Int) = v := by omega
    simp [hva]
    rw [abs_of_neg hv, neg_neg]
  · rw [intDigits, if_neg hv]
    rw [scanIntNoWs_natDigits v.toNat r hr]
    have : (v.toNat : Int) = v := by omega
    rw [this]

theorem skipWs_intDigits (v : Int) (r : List Char) :
    skipWs (intDigits v ++ r) = intDigits v ++ r := by
  by_cases hv : v < 0
  · rw [intDigits, if_pos hv]
    exact skipWs_cons_not_space _ (by decide)
  · rw [intDigits, if_neg hv]
    exact skipWs_natDigits v.toNat r

theorem scanInt_lead (v : Int) (r : List Char) (hr : headIsDigit r = false) :
    scanInt (intDigits v ++ r) = some (v, r) := by
  rw [scanInt, skipWs_intDigits, scanIntNoWs_intDigits v r hr]

theorem scanInt_fieldS (v : Int) (r : List Char) (hr : headIsDigit r = false) :
    scanInt (fieldS v r) = some (v, r) := by
  rw [fieldS, scanInt, skipWs_cons_space, skipWs_intDigits, scanIntNoWs_intDigits v r hr]

theorem scanULLNoWs_natDigits (u : Nat) (r : List Char) (hr : headIsDigit r = false) :
    scanULLNoWs (natDigits u ++ r) = some (u, r) := by
  cases hnd : natDigits u with
  | nil => exact absurd hnd (natDigits_ne_nil u)
  | cons c cs =>
    have hc : isDigitCh c = true := by
      have hall := natDigits_all_digit u
      rw [hnd] at hall
      exact hall c (by simp)
    have hd : scanDigits (natDigits u ++ r) = some (u, r) := scanDigits_natDigits u r hr
    rw [hnd, List.cons_append] at hd
    simp [scanULLNoWs, scanSign_digit _ hc, hd]

theorem scanULL_fieldU (u : Nat) (r : List Char) (hr : headIsDigit r = false) :
    scanULL (fieldU u r) = some (u, r) := by
  rw [fieldU, scanULL, skipWs_cons_space, skipWs_natDigits, scanULLNoWs_natDigits u r hr]

theorem headIsDigit_fieldS (v : Int) (r : List Char) : headIsDigit (fieldS v r) = false := by
  rw [fieldS, headIsDigit]
  decide

theorem headIsDigit_fieldU (u : Nat) (r : List Char) : headIsDigit (fieldU u r) = false := by
  rw [fieldU, headIsDigit]
  decide

theorem takeWhile_append_stop (p : Char → Bool) :
    ∀ (l : List Char) (x : Char) (r : List Char), (∀ c ∈ l, p c = true) → p x = false →
      (l ++ x :: r).takeWhile p = l := by
  intro l
  induction l with
  | nil =>
    intro x r _ hx
    simp [List.takeWhile, hx]
  | cons c cs ih =>
    intro x r hl hx
    have hc : p c = true := hl c (by simp)
    simp only [List.cons_append, List.takeWhile, hc, List.append_eq]
    rw [ih x r (fun d hd => hl d (by simp [hd])) hx]

theorem dropWhile_append_stop (p : Char → Bool) :
    ∀ (l : List Char) (x : Char) (r : List Char), (∀ c ∈ l, p c = true) → p x = false →
      (l ++ x :: r).dropWhile p = x :: r := by
  intro l
  induction l with
  | nil =>
    intro x r _ hx
    simp [List.dropWhile, hx]
  | cons c cs ih =>
    intro x r hl hx
    have hc : p c = true := hl c (by simp)
    simp only [List.cons_append, List.dropWhile, hc, List.append_eq]
    exact ih x r (fun d hd => hl d (by simp [hd])) hx

theorem scanComm_append (comm r : List Char) (hne : comm ≠ [])
    (hnp : ∀ c ∈ comm, c ≠ ')') :
    scanComm (comm ++ ')' :: r) = some (comm, ')' :: r) := by
  have hall : ∀ c ∈ comm, (fun c => !(c == ')')) c = true := by
    intro c hc
    simp [hnp c hc]
  have hx : (fun c => !(c == ')')) ')' = false := by decide
  rw [scanComm]
  simp only [takeWhile_append_stop _ comm ')' r hall hx,
    dropWhile_append_stop _ comm ')' r hall hx]
  simp [List.isEmpty_iff, hne]

theorem scanHead_mk (pid : Int) (comm : List Char) (st : Char) (tail : List Char)
    (hne : comm ≠ []) (hnp : ∀ c ∈ comm, c ≠ ')') (hst : isSpaceCh st = false) :
    scanHead (intDigits pid ++ (' ' :: '(' :: (comm ++ (')' :: ' ' :: st :: tail)))) =
      some (⟨pid, comm, st⟩, tail) := by
  have h1 : scanInt (intDigits pid ++ (' ' :: '(' :: (comm ++ (')' :: ' ' :: st :: tail))))
      = some (pid, ' ' :: '(' :: (comm ++ (')' :: ' ' :: st :: tail))) :=
    scanInt_lead _ _ (by rw [headIsDigit]; decide)
  have h2 : skipWs (' ' :: '(' :: (comm ++ (')' :: ' ' :: st :: tail)))
      = '(' :: (comm ++ (')' :: ' ' :: st :: tail)) := by
    rw [skipWs_cons_space, skipWs_cons_not_space _ (by decide)]
  have h3 : expectChar '(' ('(' :: (comm ++ (')' :: ' ' :: st :: tail)))
      = some (comm ++ (')' :: ' ' :: st :: tail)) := by
    rw [expectChar, if_pos (by decide)]
  have h4 : scanComm (comm ++ (')' :: (' ' :: st :: tail)))
      = some (comm, ')' :: (' ' :: st :: tail)) := scanComm_append comm _ hne hnp
  have h5 : expectChar ')' (')' :: (' ' :: st :: tail)) = some (' ' :: st :: tail) := by
    rw [expectChar, if_pos (by decide)]
  have h6 : skipWs (' ' :: st :: tail) = st :: tail := by
    rw [skipWs_cons_space, skipWs_cons_not_space _ hst]
  simp only [scanHead, Option.bind_eq_bind, h1, Option.some_bind, h2, h3, h4, h5, h6,
    scanChar]
  rfl

theorem scanGrpA_fields (a b c d e : Int) (r : List Char) (hr : headIsDigit r = false) :
    scanGrpA (fieldS a <| fieldS b <| fieldS c <| fieldS d <| fieldS e r) =
      some (⟨a, b, c, d, e⟩, r) := by
  simp only [scanGrpA, Option.bind_eq_bind,
    scanInt_fieldS _ _ (headIsDigit_fieldS _ _), scanInt_fieldS _ _ hr,
    Option.some_bind]
  rfl

theorem scanGrpB_fields (a b c d e f g : Nat) (r : List Char) (hr : headIsDigit r = false) :
    scanGrpB (fieldU a <| fieldU b <| fieldU c <| fieldU d <| fieldU e <| fieldU f <|
      fieldU g r) = some (⟨a, b, c, d, e, f, g⟩, r) := by
  simp only [scanGrpB, Option.bind_eq_bind,
    scanULL_fieldU _ _ (headIsDigit_fieldU _ _), scanULL_fieldU _ _ hr,
    Option.some_bind]
  rfl

theorem scanGrpC_fields (a b c d e f : Int) (r : List Char) (hr : headIsDigit r = false) :
    scanGrpC (fieldS a <| fieldS b <| fieldS c <| fieldS d <| fieldS e <| fieldS f r) =
      some (⟨a, b, c, d, e, f⟩, r) := by
  simp only [scanGrpC, Option.bind_eq_bind,
    scanInt_fieldS _ _ (headIsDigit_fieldS _ _), scanInt_fieldS _ _ hr,
    Option.some_bind]
  rfl

theorem scanGrpD_fields (a b : Nat) (c : Int) (r : List Char) (hr : headIsDigit r = false) :
    scanGrpD (fieldU a <| fieldU b <| fieldS c r) = some (⟨a, b, c⟩, r) := by
  simp only [scanGrpD, Option.bind_eq_bind,
    scanULL_fieldU _ _ (headIsDigit_fieldU _ _), scanULL_fieldU _ _ (headIsDigit_fieldS _ _),
    scanInt_fieldS _ _ hr, Option.some_bind]
  rfl

theorem scanGrpE1_fields (a b c d e f g : Nat) (r : List Char) (hr : headIsDigit r = false) :
    scanGrpE1 (fieldU a <| fieldU b <| fieldU c <| fieldU d <| fieldU e <| fieldU f <|
      fieldU g r) = some ((a, b, c, d, e, f, g), r) := by
  simp only [scanGrpE1, Option.bind_eq_bind,
    scanULL_fieldU _ _ (headIsDigit_fieldU _ _), scanULL_fieldU _ _ hr,
    Option.some_bind]
  rfl

theorem scanGrpE2_fields (a b c d e f : Nat) (r : List Char) (hr : headIsDigit r = false) :
    scanGrpE2 (fieldU a <| fieldU b <| fieldU c <| fieldU d <| fieldU e <| fieldU f r) =
      some ((a, b, c, d, e, f), r) := by
  simp only [scanGrpE2, Option.bind_eq_bind,
    scanULL_fieldU _ _ (headIsDigit_fieldU _ _), scanULL_fieldU _ _ hr,
    Option.some_bind]
  rfl

theorem scanGrpE_fields (a b c d e f g h i j k l m : Nat) (r : List Char)
    (hr : headIsDigit r = false) :
    scanGrpE (fieldU a <| fieldU b <| fieldU c <| fieldU d <| fieldU e <| fieldU f <|
      fieldU g <| fieldU h <| fieldU i <| fieldU j <| fieldU k <| fieldU l <|
      fieldU m r) = some (⟨a, b, c, d, e, f, g, h, i, j, k, l, m⟩, r) := by
  simp only [scanGrpE, Option.bind_eq_bind,
    scanGrpE1_fields _ _ _ _ _ _ _ _ (headIsDigit_fieldU _ _),
    scanGrpE2_fields _ _ _ _ _ _ _ hr, Option.some_bind]
  rfl

theorem scanGrpF_fields (a b : Int) (r : List Char) (hr : headIsDigit r = false) :
    scanGrpF (fieldS a <| fieldS b r) = some (⟨a, b⟩, r) := by
  simp only [scanGrpF, Option.bind_eq_bind,
    scanInt_fieldS _ _ (headIsDigit_fieldS _ _), scanInt_fieldS _ _ hr,
    Option.some_bind]
  rfl

theorem parseProcStat_mkStatLine (ps : PROC_STAT) (rest : List Char)
    (hne : ps.comm ≠ []) (hnp : ∀ c ∈ ps.comm, c ≠ ')')
    (hst : isSpaceCh ps.state = false) (hr : headIsDigit rest = false) :
    parseProcStat (mkStatLine ps rest) = some (ps, rest) := by
  rw [mkStatLine, mkStatTail]
  simp only [parseProcStat, Option.bind_eq_bind,
    scanHead_mk ps.pid ps.comm ps.state _ hne hnp hst, Option.some_bind,
    scanGrpA_fields _ _ _ _ _ _ (headIsDigit_fieldU _ _),
    scanGrpB_fields _ _ _ _ _ _ _ _ (headIsDigit_fieldS _ _),
    scanGrpC_fields _ _ _ _ _ _ _ (headIsDigit_fieldU _ _),
    scanGrpD_fields _ _ _ _ (headIsDigit_fieldU _ _),
    scanGrpE_fields _ _ _ _ _ _ _ _ _ _ _ _ _ _ (headIsDigit_fieldS _ _),
    scanGrpF_fields _ _ _ hr]
  rfl

theorem procinfo_step_eq (pidSelf : Int) (pg : Nat) (st : PROC_MAP × Int) (e : PROC_ENTRY) :
    procinfo_step pidSelf pg st e = (stepMap pidSelf pg st.1 e, stepCode st.2 e) := by
  rcases st with ⟨m, c⟩
  rcases e with ⟨name, stat⟩
  by_cases hd : headIsDigit name = false
  · simp [procinfo_step, stepMap, stepCode, entryFailCode, hd]
  · rcases stat with _ | mo
    · simp [procinfo_step, stepMap, stepCode, entryFailCode, hd]
    · rcases mo with _ | buf
      · simp [procinfo_step, stepMap, stepCode, entryFailCode, hd]
      · cases hp : parseProcStat buf with
        | none => simp [procinfo_step, stepMap, stepCode, entryFailCode, hd, hp]
        | some pr => simp [procinfo_step, stepMap, stepCode, entryFailCode, hd, hp]

theorem foldl_procinfo_step (pidSelf : Int) (pg : Nat) (l : List PROC_ENTRY) :
    ∀ (m : PROC_MAP) (c : Int),
      l.foldl (procinfo_step pidSelf pg) (m, c) =
        (l.foldl (stepMap pidSelf pg) m, l.foldl stepCode c) := by
  induction l with
  | nil => intro m c; rfl
  | cons e t ih =>
    intro m c
    rw [List.foldl_cons, List.foldl_cons, List.foldl_cons, procinfo_step_eq]
    exact ih _ _

theorem lastFail_foldl_getD (l : List PROC_ENTRY) : ∀ (a : Option Int) (c : Int),
    (l.foldl (fun acc e => match entryFailCode e with
      | some x => some x
      | none => acc) a).getD c = l.foldl stepCode (a.getD c) := by
  induction l with
  | nil => intro a c; rfl
  | cons e t ih =>
    intro a c
    rw [List.foldl_cons, List.foldl_cons, ih]
    cases hf : entryFailCode e with
    | none => simp [stepCode, hf]
    | some x => simp [stepCode, hf]

theorem foldl_stepCode_eq_lastFail (l : List PROC_ENTRY) (c : Int) :
    l.foldl stepCode c = (lastFail l).getD c := by
  rw [lastFail, lastFail_foldl_getD l none c]
  rfl

theorem lastFail_aux_none_iff (l : List PROC_ENTRY) : ∀ (a : Option Int),
    (l.foldl (fun acc e => match entryFailCode e with
      | some x => some x
      | none => acc) a) = none ↔ (a = none ∧ ∀ e ∈ l, entryFailCode e = none) := by
  induction l with
  | nil => intro a; simp
  | cons e t ih =>
    intro a
    rw [List.foldl_cons, ih]
    cases hf : entryFailCode e with
    | none =>
      constructor
      · rintro ⟨h1, h2⟩
        refine ⟨h1, ?_⟩
        intro x hx
        rcases List.mem_cons.mp hx with hx | hx
        · subst hx; exact hf
        · exact h2 x hx
      · rintro ⟨h1, h2⟩
        exact ⟨h1, fun x hx => h2 x (List.mem_cons_of_mem e hx)⟩
    | some x =>
      constructor
      · rintro ⟨h1, _⟩
        exact absurd h1 (by simp)
      · rintro ⟨_, h2⟩
        have := h2 e (List.mem_cons_self e t)
        rw [hf] at this
        exact absurd this (by simp)

theorem lastFail_none_iff (l : List PROC_ENTRY) :
    lastFail l = none ↔ ∀ e ∈ l, entryFailCode e = none := by
  rw [lastFail, lastFail_aux_none_iff]
  simp

theorem entryFailCode_cases (e : PROC_ENTRY) (x : Int) (h : entryFailCode e = some x) :
    x = 1 ∨ x = ERR_NULL := by
  rcases e with ⟨name, stat⟩
  rw [entryFailCode] at h
  by_cases hd : headIsDigit name = false
  · rw [if_pos hd] at h
    exact absurd h (by simp)
  · rw [if_neg hd] at h
    rcases stat with _ | mo
    · exact absurd h (by simp)
    · rcases mo with _ | buf
      · simp only [ERR_NULL, Option.some_inj] at h
        right
        rw [ERR_NULL]
        omega
      · cases hp : parseProcStat buf with
        | none =>
          simp only [hp, Option.some_inj] at h
          left
          omega
        | some pr =>
          simp only [hp] at h
          exact absurd h (by simp)

theorem lastFail_aux_mem (l : List PROC_ENTRY) : ∀ (a : Option Int) (x : Int),
    (∀ y, a = some y → y = 1 ∨ y = ERR_NULL) →
    (l.foldl (fun acc e => match entryFailCode e with
      | some x => some x
      | none => acc) a) = some x → x = 1 ∨ x = ERR_NULL := by
  induction l with
  | nil =>
    intro a x ha h
    exact ha x h
  | cons e t ih =>
    intro a x ha h
    rw [List.foldl_cons] at h
    cases hf : entryFailCode e with
    | none =>
      rw [hf] at h
      exact ih a x ha h
    | some y =>
      rw [hf] at h
      refine ih (some y) x ?_ h
      intro z hz
      simp at hz
      subst hz
      exact entryFailCode_cases e y hf

theorem lastFail_mem (l : List PROC_ENTRY) (x : Int) (h : lastFail l = some x) :
    x = 1 ∨ x = ERR_NULL := by
  rw [lastFail] at h
  exact lastFail_aux_mem l none x (by simp) h

/-! ## Map lemmas -/

theorem mapMem_insert_self (m : PROC_MAP) (k : Int) (v : PROCINFO) :
    mapMem k (mapInsert m k v) = true := by
  rw [mapInsert]
  by_cases h : (List.any m fun kv => kv.1 == k) = true
  · rw [if_pos h, mapMem]
    exact h
  · rw [if_neg h, mapMem]
    simp

theorem mapMem_insert_mono (m : PROC_MAP) (k q : Int) (v : PROCINFO)
    (h : mapMem q m = true) : mapMem q (mapInsert m k v) = true := by
  rw [mapInsert]
  by_cases hk : (List.any m fun kv => kv.1 == k) = true
  · rw [if_pos hk]
    exact h
  · rw [if_neg hk, mapMem]
    rw [mapMem] at h
    simp only [List.any_append, h, Bool.true_or]

theorem stepMap_mem_mono (pidSelf : Int) (pg : Nat) (m : PROC_MAP) (e : PROC_ENTRY)
    (q : Int) (h : mapMem q m = true) : mapMem q (stepMap pidSelf pg m e) = true := by
  rw [stepMap]
  by_cases hd : headIsDigit e.name = false
  · rw [if_pos hd]; exact h
  · rw [if_neg hd]
    rcases e.stat with _ | mo
    · exact h
    · rcases mo with _ | buf
      · exact h
      · cases hp : parseProcStat buf with
        | none => simp only [hp]; exact h
        | some pr => simp only [hp]; exact mapMem_insert_mono _ _ _ _ h

theorem foldl_stepMap_mem_mono (pidSelf : Int) (pg : Nat) (l : List PROC_ENTRY) :
    ∀ (m : PROC_MAP) (q : Int), mapMem q m = true →
      mapMem q (l.foldl (stepMap pidSelf pg) m) = true := by
  induction l with
  | nil => intro m q h; exact h
  | cons e t ih =>
    intro m q h
    rw [List.foldl_cons]
    exact ih _ q (stepMap_mem_mono pidSelf pg m e q h)

theorem entryGoodPid_step_mem (pidSelf : Int) (pg : Nat) (m : PROC_MAP) (e : PROC_ENTRY)
    (q : Int) (h : entryGoodPid e = some q) :
    mapMem q (stepMap pidSelf pg m e) = true := by
  rcases e with ⟨name, stat⟩
  rw [entryGoodPid] at h
  rw [stepMap]
  by_cases hd : headIsDigit name = false
  · rw [if_pos hd] at h
    exact absurd h (by simp)
  · rw [if_neg hd] at h
    rw [if_neg hd]
    rcases stat with _ | mo
    · exact absurd h (by simp)
    · rcases mo with _ | buf
      · exact absurd h (by simp)
      · cases hp : parseProcStat buf with
        | none =>
          simp only [hp] at h
          exact absurd h (by simp)
        | some pr =>
          simp only [hp, Option.map_some', Option.some_inj] at h
          simp only [hp]
          subst h
          exact mapMem_insert_self m _ _

theorem foldl_stepMap_goodPid (pidSelf : Int) (pg : Nat) (l : List PROC_ENTRY) :
    ∀ (m : PROC_MAP) (e : PROC_ENTRY) (q : Int), e ∈ l → entryGoodPid e = some q →
      mapMem q (l.foldl (stepMap pidSelf pg) m) = true := by
  induction l with
  | nil =>
    intro m e q he _
    exact absurd he (List.not_mem_nil e)
  | cons x t ih =>
    intro m e q he hq
    rw [List.foldl_cons]
    rcases List.mem_cons.mp he with he | he
    · subst he
      exact foldl_stepMap_mem_mono pidSelf pg t _ q
        (entryGoodPid_step_mem pidSelf pg m e q hq)
    · exact ih _ e q he hq

theorem mem_mapInsert (m : PROC_MAP) (k : Int) (v : PROCINFO) (kp : Int × PROCINFO)
    (h : kp ∈ mapInsert m k v) : kp ∈ m ∨ kp = (k, v) := by
  rw [mapInsert] at h
  by_cases hk : (List.any m fun kv => kv.1 == k) = true
  · rw [if_pos hk] at h
    exact Or.inl h
  · rw [if_neg hk] at h
    rcases List.mem_append.mp h with h | h
    · exact Or.inl h
    · exact Or.inr (List.mem_singleton.mp h)

theorem stepMap_boinc (pidSelf : Int) (pg : Nat) (m : PROC_MAP) (e : PROC_ENTRY)
    (hm : ∀ kp ∈ m, kp.2.is_boinc_app =
      ((kp.2.id == pidSelf) || strcasestrB kp.2.command ("boinc".toList))) :
    ∀ kp ∈ stepMap pidSelf pg m e, kp.2.is_boinc_app =
      ((kp.2.id == pidSelf) || strcasestrB kp.2.command ("boinc".toList)) := by
  rcases e with ⟨name, stat⟩
  intro kp hkp
  rw [stepMap] at hkp
  by_cases hd : headIsDigit name = false
  · rw [if_pos hd] at hkp
    exact hm kp hkp
  · rw [if_neg hd] at hkp
    rcases stat with _ | mo
    · exact hm kp hkp
    · rcases mo with _ | buf
      · exact hm kp hkp
      · cases hp : parseProcStat buf with
        | none =>
          simp only [hp] at hkp
          exact hm kp hkp
        | some pr =>
          simp only [hp] at hkp
          rcases mem_mapInsert _ _ _ _ hkp with h | h
          · exact hm kp h
          · subst h
            rfl

theorem foldl_stepMap_boinc (pidSelf : Int) (pg : Nat) (l : List PROC_ENTRY) :
    ∀ (m : PROC_MAP), (∀ kp ∈ m, kp.2.is_boinc_app =
      ((kp.2.id == pidSelf) || strcasestrB kp.2.command ("boinc".toList))) →
    ∀ kp ∈ l.foldl (stepMap pidSelf pg) m, kp.2.is_boinc_app =
      ((kp.2.id == pidSelf) || strcasestrB kp.2.command ("boinc".toList)) := by
  induction l with
  | nil => intro m hm; exact hm
  | cons e t ih =>
    intro m hm
    rw [List.foldl_cons]
    exact ih _ (stepMap_boinc pidSelf pg m e hm)

theorem procinfo_step_solaris_code (pidSelf : Int) (st : PROC_MAP × Int)
    (e : SOLARIS_ENTRY) : (procinfo_step_solaris pidSelf st e).2 = st.2 := by
  rcases e with ⟨name, psi, usg⟩
  rw [procinfo_step_solaris]
  by_cases hd : headIsDigit name = false
  · rw [if_pos hd]
  · rw [if_neg hd]
    rcases psi with _ | psOpt
    · rfl
    · rcases usg with _ | uOpt
      · rfl
      · rfl

theorem foldl_solaris_code (pidSelf : Int) (l : List SOLARIS_ENTRY) :
    ∀ (st : PROC_MAP × Int), (l.foldl (procinfo_step_solaris pidSelf) st).2 = st.2 := by
  induction l with
  | nil => intro st; rfl
  | cons e t ih =>
    intro st
    rw [List.foldl_cons, ih, procinfo_step_solaris_code]

theorem step_solaris_mem_mono (pidSelf : Int) (st : PROC_MAP × Int) (e : SOLARIS_ENTRY)
    (q : Int) (h : mapMem q st.1 = true) :
    mapMem q (procinfo_step_solaris pidSelf st e).1 = true := by
  rcases e with ⟨name, psi, usg⟩
  rw [procinfo_step_solaris]
  by_cases hd : headIsDigit name = false
  · rw [if_pos hd]
    exact h
  · rw [if_neg hd]
    rcases psi with _ | psOpt
    · exact h
    · rcases usg with _ | uOpt
      · exact h
      · exact mapMem_insert_mono _ _ _ _ h

theorem foldl_solaris_mem_mono (pidSelf : Int) (l : List SOLARIS_ENTRY) :
    ∀ (st : PROC_MAP × Int) (q : Int), mapMem q st.1 = true →
      mapMem q (l.foldl (procinfo_step_solaris pidSelf) st).1 = true := by
  induction l with
  | nil => intro st q h; exact h
  | cons e t ih =>
    intro st q h
    rw [List.foldl_cons]
    exact ih _ q (step_solaris_mem_mono pidSelf st e q h)

theorem step_solaris_boinc (pidSelf : Int) (st : PROC_MAP × Int) (e : SOLARIS_ENTRY)
    (hm : ∀ kp ∈ st.1, kp.2.is_boinc_app =
      ((kp.2.id == pidSelf) || strcasestrB kp.2.command ("boinc".toList))) :
    ∀ kp ∈ (procinfo_step_solaris pidSelf st e).1, kp.2.is_boinc_app =
      ((kp.2.id == pidSelf) || strcasestrB kp.2.command ("boinc".toList)) := by
  rcases e with ⟨name, psi, usg⟩
  intro kp hkp
  rw [procinfo_step_solaris] at hkp
  by_cases hd : headIsDigit name = false
  · rw [if_pos hd] at hkp
    exact hm kp hkp
  · rw [if_neg hd] at hkp
    rcases psi with _ | psOpt
    · exact hm kp hkp
    · rcases usg with _ | uOpt
      · exact hm kp hkp
      · rcases mem_mapInsert _ _ _ _ hkp with h | h
        · exact hm kp h
        · subst h
          rfl

theorem foldl_solaris_boinc (pidSelf : Int) (l : List SOLARIS_ENTRY) :
    ∀ (st : PROC_MAP × Int), (∀ kp ∈ st.1, kp.2.is_boinc_app =
      ((kp.2.id == pidSelf) || strcasestrB kp.2.command ("boinc".toList))) →
    ∀ kp ∈ (l.foldl (procinfo_step_solaris pidSelf) st).1, kp.2.is_boinc_app =
      ((kp.2.id == pidSelf) || strcasestrB kp.2.command ("boinc".toList)) := by
  induction l with
  | nil => intro st hm; exact hm
  | cons e t ih =>
    intro st hm
    rw [List.foldl_cons]
    exact ih _ (step_solaris_boinc pidSelf st e hm)

theorem procinfo_setup_entries (pidSelf : Int) (pg : Nat) (l : List PROC_ENTRY) :
    procinfo_setup pidSelf pg ⟨true, l⟩ =
      (find_children (l.foldl (stepMap pidSelf pg) ([] : PROC_MAP)),
        l.foldl stepCode 0) := by
  have h : procinfo_setup pidSelf pg ⟨true, l⟩ =
      (find_children ((l.foldl (procinfo_step pidSelf pg) (([] : PROC_MAP), (0 : Int))).1),
        (l.foldl (procinfo_step pidSelf pg) (([] : PROC_MAP), (0 : Int))).2) := rfl
  rw [h, foldl_procinfo_step]

theorem procinfo_setup_solaris_entries (pidSelf : Int) (l : List SOLARIS_ENTRY) :
    procinfo_setup_solaris pidSelf ⟨true, l⟩ =
      (find_children ((l.foldl (procinfo_step_solaris pidSelf) (([] : PROC_MAP), (0 : Int))).1),
        (l.foldl (procinfo_step_solaris pidSelf) (([] : PROC_MAP), (0 : Int))).2) := rfl

theorem foldl_stepCode_nofail (l : List PROC_ENTRY) :
    ∀ c : Int, (∀ x ∈ l, entryFailCode x = none) → l.foldl stepCode c = c := by
  induction l with
  | nil => intro c _; rfl
  | cons e t ih =>
    intro c h
    rw [List.foldl_cons]
    have he : entryFailCode e = none := h e (List.mem_cons_self e t)
    have : stepCode c e = c := by rw [stepCode, he]; rfl
    rw [this]
    exact ih c (fun x hx => h x (List.mem_cons_of_mem e hx))

/-- C1 (corrected).  Round-trip: a synthetic line carrying the 39
documented fields in their documented positions — even when followed by
trailing extra fields, which `sscanf` ignores — parses back to exactly
those values, and `PROC_STAT::parse` returns 0 on it.  (The claim's
"exactly 39 fields" iff direction fails: see the counterexample.) -/
theorem parse_roundtrip_c1 (ps : PROC_STAT) (rest : List Char)
    (hne : ps.comm ≠ []) (hnp : ∀ c ∈ ps.comm, c ≠ ')')
    (hst : isSpaceCh ps.state = false) (hr : headIsDigit rest = false) :
    parseProcStat (mkStatLine ps rest) = some (ps, rest) ∧
    PROC_STAT.parse (mkStatLine ps rest) = 0 := by
  have h := parseProcStat_mkStatLine ps rest hne hnp hst hr
  refine ⟨h, ?_⟩
  rw [PROC_STAT.parse, h]

theorem parse_roundtrip_c1_witness :
    parseProcStat (mkStatLine psExA (' ' :: '9' :: [])) =
      some (psExA, ' ' :: '9' :: []) ∧
    PROC_STAT.parse (mkStatLine psExA (' ' :: '9' :: [])) = 0 :=
  parse_roundtrip_c1 psExA (' ' :: '9' :: []) (by decide) (by decide) (by decide)
    (by decide)

/-- C1 counterexample: `lineC1` parses with return value 0 although it
does not decompose into exactly 39 fields (it has 41). -/
theorem parse_exact39_cx :
    PROC_STAT.parse lineC1 = 0 ∧ decomposesExactly39 lineC1 = false := by
  constructor
  · decide
  · decide

/-- C8 (confirmed).  When `opendir("/proc")` fails the scan returns an
empty snapshot and status 0, on both platform families, regardless of
what the (unreachable) directory contains. -/
theorem unopenable_proc_empty_zero (pidSelf : Int) (pg : Nat) (fs : PROC_FS)
    (sfs : SOLARIS_FS) (h1 : fs.procOpens = false) (h2 : sfs.procOpens = false) :
    procinfo_setup pidSelf pg fs = ([], 0) ∧
    procinfo_setup_solaris pidSelf sfs = ([], 0) := by
  constructor
  · rw [procinfo_setup, if_pos h1]
  · rw [procinfo_setup_solaris, if_pos h2]

theorem unopenable_proc_empty_zero_witness :
    procinfo_setup 1 4096 fsC8 = ([], 0) ∧
    procinfo_setup_solaris 1 sfsC8 = ([], 0) :=
  unopenable_proc_empty_zero 1 4096 fsC8 sfsC8 rfl rfl

/-- C7 (corrected).  The name filter is `isdigit(d_name[0])`: any entry
whose name does not *begin* with a digit is skipped entirely — the scan
result is as if the entry were absent.  (The claim's "purely numeric"
is too strong: see the counterexample, where a name with a digit first
character but trailing letters is processed.) -/
theorem nondigit_entry_skipped (pidSelf : Int) (pg : Nat)
    (pre post : List PROC_ENTRY) (e : PROC_ENTRY)
    (hd : headIsDigit e.name = false) :
    procinfo_setup pidSelf pg ⟨true, pre ++ e :: post⟩ =
      procinfo_setup pidSelf pg ⟨true, pre ++ post⟩ := by
  rw [procinfo_setup_entries, procinfo_setup_entries]
  have hm : ∀ m : PROC_MAP, stepMap pidSelf pg m e = m := by
    intro m
    rw [stepMap, if_pos hd]
  have hc : ∀ c : Int, stepCode c e = c := by
    intro c
    have : entryFailCode e = none := by rw [entryFailCode, if_pos hd]
    rw [stepCode, this]
    rfl
  rw [List.foldl_append, List.foldl_append, List.foldl_append, List.foldl_append,
    List.foldl_cons, List.foldl_cons, hm, hc]

theorem nondigit_entry_skipped_witness :
    procinfo_setup 1 4096 ⟨true, [⟨"5".toList, some (some (mkStatLine psExB []))⟩,
        ⟨"self".toList, some (some (mkStatLine psExA []))⟩]⟩ =
      procinfo_setup 1 4096 ⟨true, [⟨"5".toList, some (some (mkStatLine psExB []))⟩]⟩ :=
  nondigit_entry_skipped 1 4096 [⟨"5".toList, some (some (mkStatLine psExB []))⟩] []
    ⟨"self".toList, some (some (mkStatLine psExA []))⟩ (by decide)

/-- C7 counterexample: the entry named `1foo` is not purely numeric, yet
its record's pid 999 becomes a key of the snapshot. -/
theorem nonnumeric_name_key_cx :
    isPurelyNumeric ("1foo".toList) = false ∧
    mapMem 999 (procinfo_setup 1 4096 fsC7).1 = true := by
  constructor
  · decide
  · decide

/-- C10 (confirmed).  An entry whose stat file opens but yields no line
(`fgets == NULL`) is excluded from the snapshot exactly like an open
failure, but unlike one it sets the aggregate status: when no later entry
also fails, the scan returns `ERR_NULL`. -/
theorem empty_read_err_null (pidSelf : Int) (pg : Nat)
    (pre post : List PROC_ENTRY) (e : PROC_ENTRY)
    (hd : headIsDigit e.name = true) (hs : e.stat = some none)
    (hpost : ∀ x ∈ post, entryFailCode x = none) :
    (procinfo_setup pidSelf pg ⟨true, pre ++ e :: post⟩).2 = ERR_NULL ∧
    (procinfo_setup pidSelf pg ⟨true, pre ++ e :: post⟩).1 =
      (procinfo_setup pidSelf pg ⟨true, pre ++ post⟩).1 := by
  rw [procinfo_setup_entries, procinfo_setup_entries]
  have hfail : entryFailCode e = some ERR_NULL := by
    rw [entryFailCode, if_neg (by simp [hd]), hs]
  constructor
  · show List.foldl stepCode 0 (pre ++ e :: post) = ERR_NULL
    have hstep : stepCode (List.foldl stepCode 0 pre) e = ERR_NULL := by
      rw [stepCode, hfail]
      rfl
    rw [List.foldl_append, List.foldl_cons, hstep,
      foldl_stepCode_nofail post ERR_NULL hpost]
  · show find_children (List.foldl (stepMap pidSelf pg) [] (pre ++ e :: post)) =
      find_children (List.foldl (stepMap pidSelf pg) [] (pre ++ post))
    have hm : ∀ m : PROC_MAP, stepMap pidSelf pg m e = m := by
      intro m
      rw [stepMap, if_neg (by simp [hd]), hs]
    rw [List.foldl_append, List.foldl_append, List.foldl_cons, hm]

theorem empty_read_err_null_witness :
    (procinfo_setup 1 4096 ⟨true, [⟨"5".toList, some (some (mkStatLine psExB []))⟩,
        fsC10e, ⟨"8".toList, none⟩]⟩).2 = ERR_NULL ∧
    (procinfo_setup 1 4096 ⟨true, [⟨"5".toList, some (some (mkStatLine psExB []))⟩,
        fsC10e, ⟨"8".toList, none⟩]⟩).1 =
      (procinfo_setup 1 4096 ⟨true, [⟨"5".toList, some (some (mkStatLine psExB []))⟩,
        ⟨"8".toList, none⟩]⟩).1 :=
  empty_read_err_null 1 4096 [⟨"5".toList, some (some (mkStatLine psExB []))⟩]
    [⟨"8".toList, none⟩] fsC10e (by decide) rfl (by decide)

/-- C6 (corrected).  The C++ standard-library `insert` at the call site
never replaces: when a parsed entry's pid is already a key of the map
built so far, the map is unchanged — the *old* entry is retained and the
new one discarded.  (The claim's "the newly built entry replaces the
previously stored one" is the opposite: see the counterexample.) -/
theorem insert_existing_key_keeps_old (pidSelf : Int) (pg : Nat)
    (pre : List PROC_ENTRY) (e : PROC_ENTRY) (buf r : List Char) (ps : PROC_STAT)
    (hd : headIsDigit e.name = true) (hs : e.stat = some (some buf))
    (hb : parseProcStat buf = some (ps, r))
    (hk : mapMem ps.pid (procinfo_setup pidSelf pg ⟨true, pre⟩).1 = true) :
    (procinfo_setup pidSelf pg ⟨true, pre ++ [e]⟩).1 =
      (procinfo_setup pidSelf pg ⟨true, pre⟩).1 := by
  rw [procinfo_setup_entries] at hk
  have hk2 : mapMem ps.pid (List.foldl (stepMap pidSelf pg) [] pre) = true := hk
  rw [procinfo_setup_entries, procinfo_setup_entries]
  show find_children (List.foldl (stepMap pidSelf pg) [] (pre ++ [e])) =
    find_children (List.foldl (stepMap pidSelf pg) [] pre)
  rw [List.foldl_append, List.foldl_cons, List.foldl_nil]
  rw [stepMap, if_neg (by simp [hd]), hs]
  simp only [hb]
  rw [mapInsert]
  have hk3 : (List.any (List.foldl (stepMap pidSelf pg) [] pre)
      fun kv => kv.1 == (mkProcinfo pidSelf pg ps).id) = true := hk2
  rw [if_pos hk3]

theorem insert_existing_key_keeps_old_witness :
    (procinfo_setup 1 4096 ⟨true, [⟨"5".toList, some (some (mkStatLine psExB []))⟩] ++
        [⟨"5".toList, some (some (mkStatLine psExC []))⟩]⟩).1 =
      (procinfo_setup 1 4096 ⟨true, [⟨"5".toList, some (some (mkStatLine psExB []))⟩]⟩).1 :=
  insert_existing_key_keeps_old 1 4096 [⟨"5".toList, some (some (mkStatLine psExB []))⟩]
    ⟨"5".toList, some (some (mkStatLine psExC []))⟩ (mkStatLine psExC []) [] psExC
    (by decide) rfl (by decide) (by decide)

/-- C6 counterexample: two entries for pid 5 (commands `aaa` then `bbb`);
the snapshot retains the first (`aaa`) — the new entry did not replace it. -/
theorem duplicate_pid_keeps_first_cx :
    (mapLookup 5 (procinfo_setup 1 4096 fsC6).1).map (fun p => p.command) =
      some ("aaa".toList) ∧
    "aaa".toList ≠ "bbb".toList := by
  constructor
  · decide
  · decide

/-- C2 (confirmed, for the text-format family whose loop tracks
`final_retval`).  With `/proc` open: the status is 0 iff no enumerated,
accessible entry failed to read or parse; in general it equals the failure
code of the last failing entry (`lastFail`); and every successfully parsed
entry's pid reaches the snapshot even when other entries fail (the scan
runs to completion). -/
theorem status_contract_c2 (pidSelf : Int) (pg : Nat) (l : List PROC_ENTRY) :
    ((procinfo_setup pidSelf pg ⟨true, l⟩).2 = 0 ↔ ∀ e ∈ l, entryFailCode e = none) ∧
    (procinfo_setup pidSelf pg ⟨true, l⟩).2 = (lastFail l).getD 0 ∧
    (∀ e ∈ l, ∀ q, entryGoodPid e = some q →
      mapMem q (procinfo_setup pidSelf pg ⟨true, l⟩).1 = true) := by
  rw [procinfo_setup_entries]
  refine ⟨?_, ?_, ?_⟩
  · show List.foldl stepCode 0 l = 0 ↔ _
    rw [foldl_stepCode_eq_lastFail, ← lastFail_none_iff]
    constructor
    · intro h0
      cases hl : lastFail l with
      | none => rfl
      | some x =>
        rw [hl] at h0
        simp only [Option.getD_some] at h0
        rcases lastFail_mem l x hl with hx | hx
        · omega
        · rw [ERR_NULL] at hx
          omega
    · intro h
      rw [h]
      rfl
  · show List.foldl stepCode 0 l = (lastFail l).getD 0
    exact foldl_stepCode_eq_lastFail l 0
  · intro e he q hq
    show mapMem q (find_children (List.foldl (stepMap pidSelf pg) [] l)) = true
    rw [find_children]
    exact foldl_stepMap_goodPid pidSelf pg l [] e q he hq

theorem status_contract_c2_witness :
    (((procinfo_setup 1 4096 ⟨true, entC2⟩).2 = 0 ↔
        ∀ e ∈ entC2, entryFailCode e = none) ∧
      (procinfo_setup 1 4096 ⟨true, entC2⟩).2 = (lastFail entC2).getD 0 ∧
      (∀ e ∈ entC2, ∀ q, entryGoodPid e = some q →
        mapMem q (procinfo_setup 1 4096 ⟨true, entC2⟩).1 = true)) ∧
    (procinfo_setup 1 4096 ⟨true, entC2⟩).2 = ERR_NULL ∧
    mapMem 5 (procinfo_setup 1 4096 ⟨true, entC2⟩).1 = true :=
  ⟨status_contract_c2 1 4096 entC2, by decide, by decide⟩

/-- C5 (corrected).  On the binary-struct family a truncated `psinfo`
read does *not* exclude the entry and does *not* set the status: the
loop inserts a zero-initialized record (under pid 0) as long as the
`usage` file opens, and the Solaris branch never writes `final_retval`,
so the status is 0.  (The claim said the entry is excluded and the
status set: see the counterexample.) -/
theorem truncated_read_admitted (pidSelf : Int) (pre post : List SOLARIS_ENTRY)
    (e : SOLARIS_ENTRY) (uo : Option prusage_t)
    (hd : headIsDigit e.name = true) (hp : e.psinfo = some none)
    (hu : e.usage = some uo) :
    mapMem 0 (procinfo_setup_solaris pidSelf ⟨true, pre ++ e :: post⟩).1 = true ∧
    (procinfo_setup_solaris pidSelf ⟨true, pre ++ e :: post⟩).2 = 0 := by
  rw [procinfo_setup_solaris_entries]
  constructor
  · show mapMem 0 (find_children
      ((List.foldl (procinfo_step_solaris pidSelf) ([], 0) (pre ++ e :: post)).1)) = true
    rw [find_children, List.foldl_append, List.foldl_cons]
    apply foldl_solaris_mem_mono
    rw [procinfo_step_solaris, if_neg (by simp [hd]), hp, hu]
    cases uo with
    | none => exact mapMem_insert_self _ _ _
    | some u => exact mapMem_insert_self _ _ _
  · show (List.foldl (procinfo_step_solaris pidSelf) ([], 0) (pre ++ e :: post)).2 = 0
    rw [foldl_solaris_code]

theorem truncated_read_admitted_witness :
    mapMem 0 (procinfo_setup_solaris 1
      ⟨true, [] ++ (⟨"3".toList, some none, some (some uC4)⟩ : SOLARIS_ENTRY) :: []⟩).1 = true ∧
    (procinfo_setup_solaris 1
      ⟨true, [] ++ (⟨"3".toList, some none, some (some uC4)⟩ : SOLARIS_ENTRY) :: []⟩).2 = 0 :=
  truncated_read_admitted 1 [] [] ⟨"3".toList, some none, some (some uC4)⟩
    (some uC4) (by decide) rfl rfl

/-- C5 counterexample: with a truncated `psinfo` read the scan still
stores a record (under pid 0) and reports status 0 — the entry is neither
excluded nor reflected in the status. -/
theorem truncated_read_cx :
    (procinfo_setup_solaris 1 sfsC5).2 = 0 ∧
    (mapLookup 0 (procinfo_setup_solaris 1 sfsC5).1).isSome = true := by
  constructor
  · decide
  · decide

/-- C9 (confirmed).  Every stored entry's `is_boinc_app` equals: its own
`id` equals the scanning process's pid, or its stored command name
contains `boinc` case-insensitively — on both platform families. -/
theorem is_boinc_app_characterization (pidSelf : Int) (pg : Nat) (fs : PROC_FS)
    (sfs : SOLARIS_FS) :
    (∀ kp ∈ (procinfo_setup pidSelf pg fs).1, kp.2.is_boinc_app =
      ((kp.2.id == pidSelf) || strcasestrB kp.2.command ("boinc".toList))) ∧
    (∀ kp ∈ (procinfo_setup_solaris pidSelf sfs).1, kp.2.is_boinc_app =
      ((kp.2.id == pidSelf) || strcasestrB kp.2.command ("boinc".toList))) := by
  constructor
  · rcases fs with ⟨op, l⟩
    cases op with
    | false =>
      intro kp hkp
      have h : procinfo_setup pidSelf pg ⟨false, l⟩ = ([], 0) := rfl
      rw [h] at hkp
      exact absurd hkp (List.not_mem_nil kp)
    | true =>
      rw [procinfo_setup_entries]
      intro kp hkp
      have hkp2 : kp ∈ List.foldl (stepMap pidSelf pg) [] l := hkp
      exact foldl_stepMap_boinc pidSelf pg l []
        (fun x hx => absurd hx (List.not_mem_nil x)) kp hkp2
  · rcases sfs with ⟨op, l⟩
    cases op with
    | false =>
      intro kp hkp
      have h : procinfo_setup_solaris pidSelf ⟨false, l⟩ = ([], 0) := rfl
      rw [h] at hkp
      exact absurd hkp (List.not_mem_nil kp)
    | true =>
      rw [procinfo_setup_solaris_entries]
      intro kp hkp
      have hkp2 : kp ∈ (List.foldl (procinfo_step_solaris pidSelf) ([], 0) l).1 := hkp
      exact foldl_solaris_boinc pidSelf l ([], 0)
        (fun x hx => absurd hx (List.not_mem_nil x)) kp hkp2

theorem is_boinc_app_characterization_witness :
    p3C9.is_boinc_app = ((p3C9.id == 1) || strcasestrB p3C9.command ("boinc".toList)) ∧
    p3C9.is_boinc_app = true :=
  ⟨(is_boinc_app_characterization 1 4096 fsC8 sfsC9).2 (p3C9.id, p3C9)
      (List.Mem.head _),
    by decide⟩

/-- C3 (corrected).  Normalization of the memory fields: on the
text-format family `working_set_size` is pages-to-bytes (`rss * pagesize`)
but `swap_size` is stored as the raw `vsize` value with *no* page
multiplication (the kernel supplies `vsize` in bytes); on the
binary-struct family both fields are kilobytes-to-bytes (`* 1024`). -/
theorem memory_units_amended (pidSelf : Int) (pg : Nat) (ps : PROC_STAT)
    (si : psinfo_t) :
    (mkProcinfo pidSelf pg ps).working_set_size = (ps.rss : ℚ) * (pg : ℚ) ∧
    (mkProcinfo pidSelf pg ps).swap_size = (ps.vsize : ℚ) ∧
    (psinfoToProcinfo si).swap_size = (si.pr_size : ℚ) * 1024 ∧
    (psinfoToProcinfo si).working_set_size = (si.pr_rssize : ℚ) * 1024 :=
  ⟨rfl, rfl, rfl, rfl⟩

/-- C3 counterexample: a record with `vsize = 3` scanned at page size
4096 stores `swap_size = 3`, not `3 * 4096` — the stored value is not
"pages times page size". -/
theorem swap_size_no_page_mul_cx :
    (mapLookup 7 (procinfo_setup 1 4096 fsC3).1).map (fun p => p.swap_size) =
      some (3 : ℚ) ∧
    (3 : ℚ) ≠ 3 * 4096 := by
  constructor
  · decide
  · norm_num

/-- C4 (code_bug).  On the binary-struct family, `user_time` is the
user-time pair (seconds + nanoseconds/1e9), but `kernel_time` is computed
from `pr_stime.tv_sec` *plus `pr_utime.tv_nsec`* (source line 212): at
`pr_utime = (1 s, 100000000 ns)`, `pr_stime = (5 s, 700000000 ns)` the
stored kernel time is 5.1 s, not the 5.7 s the kernel-time pair gives. -/
theorem solaris_kernel_time_bug_eval :
    (usageApply PROCINFO.clear uC4).user_time = 11 / 10 ∧
    (usageApply PROCINFO.clear uC4).kernel_time = 51 / 10 ∧
    (51 / 10 : ℚ) ≠ (5 : ℚ) + (700000000 : ℚ) / 1000000000 ∧
    (mapLookup 9 (procinfo_setup_solaris 1 sfsC4).1).map (fun p => p.kernel_time) =
      some (((5 : Nat) : ℚ) + ((100000000 : Nat) : ℚ) / 1000000000) := by
  refine ⟨?_, ?_, ?_, ?_⟩
  · show ((1 : Nat) : ℚ) + ((100000000 : Nat) : ℚ) / 1000000000 = 11 / 10
    norm_num
  · show ((5 : Nat) : ℚ) + ((100000000 : Nat) : ℚ) / 1000000000 = 51 / 10
    norm_num
  · norm_num
  · rfl
